import Mathlib

/-!
# Verification of the Financial Analytics Dashboard logic

A shallow embedding of the computational core of `financial_ratios.py`:
the metric-card formatter, the percent-change computation, the three CSV
loaders, the sentiment column resolution, and the month/year aggregation
of the Filtered Visualizations page.  Numeric values are modelled as `ℚ`
(pandas floats on the small, exact inputs at issue), tables as ordered
association lists from column names to cell lists, and missing values
(`NaN`) as `Option.none`.
-/

/-! ## Python fixed-point string formatting

Models Python format specifiers `:,.Nf` and `:.Nf` on the values the
dashboard formats.  Python formats a float by correctly rounding its
value to `N` decimals with round-half-to-even; we perform the same
rounding on the rational value.  The computation is split into a raw
integer-level function on a numerator/denominator pair (`pyFixedRaw`)
and a wrapper on `ℚ` (`pyFixed`).
-/

/-- Round the fraction `n / d` (with `0 < d`) half-to-even to an integer,
using floor division. -/
def roundHalfEvenRaw (n d : ℤ) : ℤ :=
  let f : ℤ := Int.fdiv n d
  let r2 : ℤ := 2 * (n - f * d)
  if r2 < d then f
  else if d < r2 then f + 1
  else if Int.emod f 2 = 0 then f else f + 1

/-- Insert a comma after every group of three digits, operating on the
reversed digit list of the integer part (Python thousands grouping `,`). -/
def groupDigitsAux : List Char → List Char
  | a :: b :: c :: e :: tl => a :: b :: c :: ',' :: groupDigitsAux (e :: tl)
  | l => l

/-- Thousands-grouping of a decimal digit string, as in Python `:,` format. -/
def groupDigits (s : String) : String :=
  String.mk (groupDigitsAux s.data.reverse).reverse

/-- Left-pad a digit string with zeros to width `d`. -/
def padZeros (s : String) (d : Nat) : String :=
  String.mk (List.replicate (d - s.length) '0') ++ s

/-- Fixed-point rendering of the fraction `num / den` with `d` decimals
and optional thousands grouping, the integer-level core of `pyFixed`. -/
def pyFixedRaw (comma : Bool) (d : Nat) (num : ℤ) (den : ℕ) : String :=
  let n : ℤ := roundHalfEvenRaw (num * ((10 ^ d : ℕ) : ℤ)) (den : ℤ)
  let sign : String := if n < 0 then "-" else ""
  let m : Nat := n.natAbs
  let ip : Nat := m / 10 ^ d
  let fp : Nat := m % 10 ^ d
  let ipStr : String := if comma then groupDigits (toString ip) else toString ip
  if d = 0 then sign ++ ipStr
  else sign ++ ipStr ++ "." ++ padZeros (toString fp) d

/-- Python `f"{q:,.df}"` (`comma = true`) or `f"{q:.df}"` (`comma = false`). -/
def pyFixed (comma : Bool) (d : Nat) (q : ℚ) : String :=
  pyFixedRaw comma d q.num q.den

/-- Evaluation rule for `pyFixed`: once the numerator and denominator of
the (normalised) rational argument are known, the rendering is the raw
integer-level computation. -/
theorem pyFixed_eq (comma : Bool) (d : Nat) (q : ℚ) (n : ℤ) (k : ℕ)
    (hn : q.num = n) (hk : q.den = k) :
    pyFixed comma d q = pyFixedRaw comma d n k := by
  rw [pyFixed, hn, hk]

/-! ## Metric cards (`create_metric_card`, lines 55-93) -/

/-- A Python value handed to `create_metric_card`: a number
(`isinstance(value, (int, float))` branch) or a string. -/
inductive PyVal where
  | num (q : ℚ)
  | str (s : String)
deriving DecidableEq

/-- The display-relevant fields of the HTML card produced by
`create_metric_card`: the formatted value, the direction arrow and the
change line.  `arrow` and `change_text` start as `""` and are set only
when both `change` and `change_pct` are given, exactly as in the source. -/
structure MetricCard where
  value_display : String
  arrow : String
  change_text : String
deriving DecidableEq

/-- `create_metric_card(title, value, change, change_pct, icon)`
(lines 55-93), restricted to its computed fields.  The magnitude
branches are `abs(value) >= 1_000_000` → `f"${value/1_000_000:,.1f}M"`,
`abs(value) >= 1_000` → `f"${value/1_000:,.1f}K"`, else `f"{value:,.2f}"`;
non-numeric values pass through `str(value)`.  The change line is
`f"{arrow} {abs(change):,.2f} ({abs(change_pct):.1f}%)"` with
`arrow = "↑" if change >= 0 else "↓"`. -/
def create_metric_card (value : PyVal) (change change_pct : Option ℚ) : MetricCard :=
  let value_display : String :=
    match value with
    | .num v =>
      if 1000000 ≤ |v| then "$" ++ pyFixed true 1 (v / 1000000) ++ "M"
      else if 1000 ≤ |v| then "$" ++ pyFixed true 1 (v / 1000) ++ "K"
      else pyFixed true 2 v
    | .str s => s
  match change, change_pct with
  | some c, some p =>
    { value_display := value_display
      arrow := if 0 ≤ c then "↑" else "↓"
      change_text :=
        (if 0 ≤ c then "↑" else "↓") ++ " " ++ pyFixed true 2 |c| ++
          " (" ++ pyFixed false 1 |p| ++ "%)" }
  | _, _ => { value_display := value_display, arrow := "", change_text := "" }

/-! ## Percent change (e.g. `rev_change_pct`, lines 187-190) -/

/-- `change = latest - prev`; `change_pct = (change / prev) * 100 if prev != 0
else 0`.  A total function: the guard makes the division-by-zero case
unreachable, so the computation can never raise. -/
def pct_change (latest prev : ℚ) : ℚ :=
  if prev ≠ 0 then (latest - prev) / prev * 100 else 0

example : pyFixedRaw true 1 3 2 = "1.5" := by decide
example : pyFixedRaw true 2 21339 500 = "42.68" := by decide
example : pyFixedRaw true 2 1234567891 1000 = "1,234,567.89" := by decide
example : pyFixedRaw false 1 10 1 = "10.0" := by decide
example : pyFixedRaw true 2 0 1 = "0.00" := by decide
example : ((2500 : ℚ) / 1000).num = 5 := by norm_num
example : ((2500 : ℚ) / 1000).den = 2 := by norm_num
example : (42.678 : ℚ).num = 21339 := by norm_num
example : pyFixed true 1 ((2500 : ℚ) / 1000) = "2.5" := by
  rw [pyFixed_eq true 1 _ 5 2 (by norm_num) (by norm_num)]
  decide

/-! ## Tables

A pandas `DataFrame` is modelled as an ordered association list from
column names to cell lists.  Cells are numbers, strings, dates
(year and zero-based month, `pd.Timestamp` restricted to what the
dashboard reads from it) or missing (`NaN`).
-/

/-- A cell of a table. -/
inductive Cell where
  | num (q : ℚ)
  | str (s : String)
  | date (year : ℤ) (month : Fin 12)
  | na
deriving DecidableEq

/-- A table: ordered columns, each a name with its list of cells. -/
structure DF where
  cols : List (String × List Cell)
deriving DecidableEq

/-- `pd.DataFrame()`, the empty table the loaders return on a missing file. -/
def emptyDF : DF := ⟨[]⟩

/-- The column names of a table, in order (`df.columns`). -/
def colNames (df : DF) : List String := df.cols.map Prod.fst

/-- Column lookup (`df[c]`), `none` when the name is absent (`KeyError`). -/
def getCol (df : DF) (c : String) : Option (List Cell) :=
  (df.cols.find? (fun p => p.1 == c)).map Prod.snd

/-- The number of rows of a table (length of its first column). -/
def nrows (df : DF) : ℕ :=
  match df.cols with
  | [] => 0
  | p :: _ => p.2.length

/-- `df.empty`: true when the table has no columns or no rows. -/
def isEmptyDF (df : DF) : Bool :=
  df.cols.isEmpty || nrows df == 0

/-- Column assignment `df[c] = cells`: replace the column in place if the
name exists, else append it as the last column. -/
def setCol (df : DF) (c : String) (cells : List Cell) : DF :=
  if df.cols.any (fun p => p.1 == c) then
    ⟨df.cols.map (fun p => if p.1 == c then (c, cells) else p)⟩
  else
    ⟨df.cols ++ [(c, cells)]⟩

/-- Column rename `df.rename(columns={old: new})`. -/
def renameCol (df : DF) (old new : String) : DF :=
  ⟨df.cols.map (fun p => if p.1 == old then (new, p.2) else p)⟩

/-- `pd.concat([a, b])`: outer-align the columns (first table's column
order, then the second's new columns), padding absent columns with `NaN`. -/
def concatDF (a b : DF) : DF :=
  let names := colNames a ++ (colNames b).filter (fun c => !(colNames a).contains c)
  ⟨names.map (fun c =>
    (c, (match getCol a c with
         | some l => l
         | none => List.replicate (nrows a) Cell.na)
      ++ (match getCol b c with
          | some l => l
          | none => List.replicate (nrows b) Cell.na)))⟩

/-! ## Data loaders (lines 96-140)

The `Option DF` argument models the file system: `none` is the
`FileNotFoundError` branch, in which the loader surfaces a non-fatal
`st.error` message and returns `pd.DataFrame()`.  Date parsing is the
identity in the model (dates are already structured cells).
-/

/-- `load_financial_data` (lines 96-106): parse dates, rename
`Shareholder's Equity` to `Shareholders_Equity`; empty table when the
file is missing. -/
def load_financial_data (file : Option DF) : DF :=
  match file with
  | some data => renameCol data "Shareholder\x27s Equity" "Shareholders_Equity"
  | none => emptyDF

/-- `load_commodities_data` (lines 108-126): parse dates, rename
`CPIAUCSL`/`WTISPLC`/`PCOPPUSDM` to `CPI`/`Oil`/`Copper`; empty table
when the file is missing. -/
def load_commodities_data (file : Option DF) : DF :=
  match file with
  | some data =>
    renameCol (renameCol (renameCol data "CPIAUCSL" "CPI") "WTISPLC" "Oil") "PCOPPUSDM" "Copper"
  | none => emptyDF

/-- `load_sentiment_data` (lines 128-140): parse the `date` column when
present; empty table when the file is missing. -/
def load_sentiment_data (file : Option DF) : DF :=
  match file with
  | some data => data
  | none => emptyDF

/-! ## News Sentiments page (lines 896-1004) -/

/-- The ordered alias list for the sentiment score column (line 902). -/
def possible_sentiment_cols : List String :=
  ["sentiment_score", "sentiment", "score", "sentiment score"]

/-- The `for col in possible_sentiment_cols: if col in sentiment_df.columns:
sentiment_col = col; break` loop (lines 901-906): the first alias that is a
column of the table, else `None`. -/
def resolve_sentiment_col (cols : List String) : Option String :=
  possible_sentiment_cols.find? (fun c => cols.contains c)

/-- Outcome of the News Sentiments page: the empty-table warning, the
missing-column error reporting the available column names, or the
sentiment visualizations drawn over the resolved column. -/
inductive SentimentView where
  | noData
  | missingCol (available : List String)
  | visuals (col : String)
deriving DecidableEq

/-- The control flow of the News Sentiments page (lines 896-1004). -/
def news_sentiments_page (sentiment_df : DF) : SentimentView :=
  if isEmptyDF sentiment_df then .noData
  else
    match resolve_sentiment_col (colNames sentiment_df) with
    | some c => .visuals c
    | none => .missingCol (colNames sentiment_df)

/-! ## Filtered Visualizations page (lines 1007-1100) -/

/-- Line 1011/1012: `df['source'] = tag`.  The source performs this
assignment in place on the loaded table, so the result is the state of
`financial_df`/`commodities_df` after the page has rendered. -/
def tagSource (df : DF) (tag : String) : DF :=
  setCol df "source" (List.replicate (nrows df) (Cell.str tag))

/-- `.dt.year` of a date cell, `NaN` otherwise. -/
def cellYear : Cell → Cell
  | .date y _ => .num (y : ℚ)
  | _ => .na

/-- The twelve calendar month names, January first (line 1058). -/
def month_order : List String :=
  ["January", "February", "March", "April", "May", "June",
   "July", "August", "September", "October", "November", "December"]

/-- The calendar name of a month index. -/
def monthName (m : Fin 12) : String := month_order.getD m.val ""

/-- `.dt.month_name()` of a date cell, `NaN` otherwise. -/
def cellMonthName : Cell → Cell
  | .date _ m => .str (monthName m)
  | _ => .na

/-- Lines 1010-1017 of the Filtered Visualizations page: tag both loaded
tables with a `source` column in place, concatenate them, and derive
`year` and `month` columns from `Date`.  Accessing the `Date` column of
the combined table is a `KeyError` (modelled as `.error`) when neither
input table has a `Date` column.  Returns the post-render states of the
two loaded tables together with the combined table. -/
def filtered_visuals_prepare (financial_df commodities_df : DF) :
    Except String (DF × DF × DF) :=
  let fin := tagSource financial_df "financial"
  let comm := tagSource commodities_df "commodities"
  let combined := concatDF fin comm
  match getCol combined "Date" with
  | none => .error "KeyError: Date"
  | some dates =>
    let combined := setCol combined "year" (dates.map cellYear)
    let combined := setCol combined "month" (dates.map cellMonthName)
    .ok (fin, comm, combined)

/-! ## Aggregation (lines 1055-1071)

A row of the filtered/combined table is reduced to what the group-by
reads: the derived `year` and `month` of its date, and the cell of the
chosen numeric column (`none` for `NaN`, which `mean` skips).
-/

/-- A row of the filtered table, restricted to the chosen column. -/
structure Row where
  year : ℤ
  month : Fin 12
  value : Option ℚ
deriving DecidableEq

/-- The arithmetic mean of a list of values, undefined (`NaN`) when the
list is empty. -/
def meanOf (l : List ℚ) : Option ℚ :=
  if l.isEmpty then none else some (l.sum / (l.length : ℚ))

/-- The numeric entries of the chosen column over the rows of month `m`
(`mean` excludes missing entries). -/
def valuesInMonth (rows : List Row) (m : Fin 12) : List ℚ :=
  (rows.filter (fun r => decide (r.month = m))).filterMap Row.value

/-- The numeric entries of the chosen column over the rows of year `y`. -/
def valuesInYear (rows : List Row) (y : ℤ) : List ℚ :=
  (rows.filter (fun r => decide (r.year = y))).filterMap Row.value

/-- Monthly aggregation (lines 1056-1065):
`filtered_df['month'] = pd.Categorical(filtered_df['month'],
categories=month_order, ordered=True)` followed by
`filtered_df.groupby('month')[column].mean().reset_index()`.
With the pandas default `observed=False`, grouping by a categorical
emits one group per category — all twelve months, in category
(calendar) order — and the mean of an empty group is `NaN`. -/
def monthlyAgg (rows : List Row) : List (String × Option ℚ) :=
  (List.finRange 12).map (fun m => (monthName m, meanOf (valuesInMonth rows m)))

/-- Insert a year into a strictly ascending list, dropping duplicates. -/
def sortedInsertYear (y : ℤ) : List ℤ → List ℤ
  | [] => [y]
  | a :: tl =>
    if y < a then y :: a :: tl
    else if y = a then a :: tl
    else a :: sortedInsertYear y tl

/-- The distinct years of the rows, in ascending order (the group keys
of `groupby('year')`, which sorts by default). -/
def yearsOf (rows : List Row) : List ℤ :=
  rows.foldr (fun r acc => sortedInsertYear r.year acc) []

/-- Yearly aggregation (lines 1066-1071):
`filtered_df.groupby('year')[column].mean().reset_index()` — one group
per distinct year, ascending, mean skipping `NaN` entries. -/
def yearlyAgg (rows : List Row) : List (ℤ × Option ℚ) :=
  (yearsOf rows).map (fun y => (y, meanOf (valuesInYear rows y)))

/-! ## Latest/previous rows of the metric pages (lines 187-190 etc.)

A dated numeric series (the `Date` column plus one numeric column of a
loaded table) is a list of (date, value) pairs in row order.
-/

/-- `series.iloc[-1]`: the positionally last row. -/
def ilocLast (rows : List (ℤ × ℚ)) : Option (ℤ × ℚ) := rows.getLast?

/-- `series.iloc[-2] if len(df) > 1 else latest`: the second-to-last row,
falling back to the last row for a single-row table. -/
def ilocPrev (rows : List (ℤ × ℚ)) : Option (ℤ × ℚ) :=
  if 1 < rows.length then rows[rows.length - 2]? else rows.getLast?

/-- The metric-card computation of the Financial Metrics page
(lines 187-206 and analogues): latest value, previous value with the
single-row fallback, change, guarded percent change, and the card. -/
def metrics_pipeline (rows : List (ℤ × ℚ)) : Option MetricCard :=
  match ilocLast rows with
  | none => none
  | some last =>
    let prev := (ilocPrev rows).getD last
    let change := last.2 - prev.2
    some (create_metric_card (.num last.2) (some change) (some (pct_change last.2 prev.2)))

/-! ## Card projection lemmas -/

/-- The value display of a card does not depend on the change arguments. -/
theorem value_display_eq (q : ℚ) (c p : Option ℚ) :
    (create_metric_card (.num q) c p).value_display =
      if 1000000 ≤ |q| then "$" ++ pyFixed true 1 (q / 1000000) ++ "M"
      else if 1000 ≤ |q| then "$" ++ pyFixed true 1 (q / 1000) ++ "K"
      else pyFixed true 2 q := by
  cases c <;> cases p <;> rfl

/-- The arrow of a card with both change arguments given. -/
theorem arrow_eq (value : PyVal) (c p : ℚ) :
    (create_metric_card value (some c) (some p)).arrow =
      if 0 ≤ c then "↑" else "↓" := by
  cases value <;> rfl

/-- The change line of a card with both change arguments given. -/
theorem change_text_eq (value : PyVal) (c p : ℚ) :
    (create_metric_card value (some c) (some p)).change_text =
      (if 0 ≤ c then "↑" else "↓") ++ " " ++ pyFixed true 2 |c| ++
        " (" ++ pyFixed false 1 |p| ++ "%)" := by
  cases value <;> rfl

/-- C5: for every value and previous value the percent-change computation
is a total function (it never divides by zero): when the previous value is
0 the result is 0, and otherwise it is (value − previous) / previous × 100. -/
theorem pct_change_never_faults :
    (∀ v : ℚ, pct_change v 0 = 0) ∧
    ∀ v p : ℚ, p ≠ 0 → pct_change v p = (v - p) / p * 100 := by
  constructor
  · intro v; simp [pct_change]
  · intro v p hp; simp [pct_change, hp]

/-- Witness for C5 at value 110 with previous 100 and previous 0. -/
theorem pct_change_never_faults_witness :
    pct_change 110 0 = 0 ∧
    (100 : ℚ) ≠ 0 ∧
    pct_change 110 100 = ((110 : ℚ) - 100) / 100 * 100 :=
  ⟨pct_change_never_faults.1 110, by norm_num,
    pct_change_never_faults.2 110 100 (by norm_num)⟩

/-- C6: the metric formatter displays "$X.XM" (value / 1,000,000, one
decimal) when |value| ≥ 1,000,000, "$X.XK" (value / 1,000, one decimal)
when 1,000 ≤ |value| < 1,000,000, and the plain two-decimal number
otherwise; 1,500,000 ↦ "$1.5M", 2,500 ↦ "$2.5K", 42.678 ↦ "42.68"; a
non-numeric value passes through as its string form unchanged. -/
theorem value_display_magnitude :
    (∀ q : ℚ, 1000000 ≤ |q| →
      (create_metric_card (.num q) none none).value_display =
        "$" ++ pyFixed true 1 (q / 1000000) ++ "M") ∧
    (∀ q : ℚ, |q| < 1000000 → 1000 ≤ |q| →
      (create_metric_card (.num q) none none).value_display =
        "$" ++ pyFixed true 1 (q / 1000) ++ "K") ∧
    (∀ q : ℚ, |q| < 1000 →
      (create_metric_card (.num q) none none).value_display = pyFixed true 2 q) ∧
    (∀ s : String, (create_metric_card (.str s) none none).value_display = s) ∧
    (create_metric_card (.num 1500000) none none).value_display = "$1.5M" ∧
    (create_metric_card (.num 2500) none none).value_display = "$2.5K" ∧
    (create_metric_card (.num (42.678 : ℚ)) none none).value_display = "42.68" := by
  refine ⟨?_, ?_, ?_, ?_, ?_, ?_, ?_⟩
  · intro q h
    rw [value_display_eq, if_pos h]
  · intro q h1 h2
    rw [value_display_eq, if_neg (not_le.mpr h1), if_pos h2]
  · intro q h
    rw [value_display_eq, if_neg (not_le.mpr (lt_trans h (by norm_num))),
      if_neg (not_le.mpr h)]
  · intro s; rfl
  · rw [value_display_eq, if_pos (by norm_num),
      pyFixed_eq true 1 _ 3 2 (by norm_num) (by norm_num)]
    decide
  · rw [value_display_eq, if_neg (by norm_num), if_pos (by norm_num),
      pyFixed_eq true 1 _ 5 2 (by norm_num) (by norm_num)]
    decide
  · have habs : |(42.678 : ℚ)| = 42.678 := abs_of_nonneg (by norm_num)
    rw [value_display_eq, if_neg (by rw [habs]; norm_num),
      if_neg (by rw [habs]; norm_num),
      pyFixed_eq true 2 _ 21339 500 (by norm_num) (by norm_num)]
    decide

/-- Witness for C6 in the K branch at 2,500. -/
theorem value_display_magnitude_witness :
    |(2500 : ℚ)| < 1000000 ∧ (1000 : ℚ) ≤ |(2500 : ℚ)| ∧
    (create_metric_card (.num 2500) none none).value_display =
      "$" ++ pyFixed true 1 ((2500 : ℚ) / 1000) ++ "K" :=
  ⟨by norm_num, by norm_num,
    value_display_magnitude.2.1 2500 (by norm_num) (by norm_num)⟩

/-- C7: with a previous value given, the direction is up exactly when
delta = value − previous ≥ 0 (down otherwise), and the change line is
"{arrow} {abs(delta):,.2f} ({abs(delta_pct):.1f}%)"; value 110 with
previous 100 yields "↑ 10.00 (10.0%)" (direction up) and value 90 with
previous 100 yields direction down. -/
theorem delta_direction_and_text :
    (∀ v p : ℚ,
      ((create_metric_card (.num v) (some (v - p)) (some (pct_change v p))).arrow = "↑"
        ↔ 0 ≤ v - p) ∧
      (create_metric_card (.num v) (some (v - p)) (some (pct_change v p))).change_text =
        (if 0 ≤ v - p then "↑" else "↓") ++ " " ++ pyFixed true 2 |v - p| ++
          " (" ++ pyFixed false 1 |pct_change v p| ++ "%)") ∧
    (create_metric_card (.num 110) (some ((110 : ℚ) - 100))
      (some (pct_change 110 100))).change_text = "↑ 10.00 (10.0%)" ∧
    (create_metric_card (.num 110) (some ((110 : ℚ) - 100))
      (some (pct_change 110 100))).arrow = "↑" ∧
    (create_metric_card (.num 90) (some ((90 : ℚ) - 100))
      (some (pct_change 90 100))).arrow = "↓" := by
  have hup : ∀ v p : ℚ, 0 ≤ v - p →
      (create_metric_card (.num v) (some (v - p)) (some (pct_change v p))).arrow = "↑" := by
    intro v p h
    rw [arrow_eq, if_pos h]
  refine ⟨fun v p => ⟨⟨?_, hup v p⟩, ?_⟩, ?_, ?_, ?_⟩
  · intro h
    by_contra hneg
    rw [arrow_eq, if_neg hneg] at h
    exact absurd h (by decide)
  · rw [change_text_eq]
  · have h10 : pct_change 110 100 = 10 := by norm_num [pct_change]
    have hd : ((110 : ℚ) - 100) = 10 := by norm_num
    rw [change_text_eq, h10, hd, if_pos (by norm_num),
      show |(10 : ℚ)| = 10 from abs_of_nonneg (by norm_num),
      pyFixed_eq true 2 _ 10 1 (by norm_num) (by norm_num),
      pyFixed_eq false 1 _ 10 1 (by norm_num) (by norm_num)]
    decide
  · exact hup 110 100 (by norm_num)
  · rw [arrow_eq, if_neg (by norm_num)]

/-- Witness for C7: the up-direction equivalence instantiated at
value 110, previous 100. -/
theorem delta_direction_and_text_witness :
    ((create_metric_card (.num 110) (some ((110 : ℚ) - 100))
      (some (pct_change 110 100))).arrow = "↑" ↔ 0 ≤ (110 : ℚ) - 100) :=
  (delta_direction_and_text.1 110 100).1

/-- C10: for a single-row table the previous value defaults to the latest
value, so the change is 0 and the percent change is 0, and the card still
carries a delta line, with direction up: "↑ 0.00 (0.0%)". -/
theorem single_row_delta_zero :
    ∀ (d : ℤ) (v : ℚ),
      ilocPrev [(d, v)] = ilocLast [(d, v)] ∧
      pct_change v v = 0 ∧
      ∃ card, metrics_pipeline [(d, v)] = some card ∧
        card.arrow = "↑" ∧
        card.change_text = "↑ 0.00 (0.0%)" ∧
        card.value_display = (create_metric_card (.num v) none none).value_display := by
  intro d v
  have hpct : pct_change v v = 0 := by
    simp [pct_change, sub_self]
  refine ⟨rfl, hpct, ?_⟩
  refine ⟨create_metric_card (.num v) (some (v - v)) (some (pct_change v v)), rfl, ?_, ?_, ?_⟩
  · rw [arrow_eq, if_pos (by simp [sub_self])]
  · rw [change_text_eq, if_pos (by simp [sub_self]), hpct, sub_self,
      abs_zero, pyFixed_eq true 2 _ 0 1 (by norm_num) (by norm_num),
      pyFixed_eq false 1 _ 0 1 (by norm_num) (by norm_num)]
    decide
  · rw [value_display_eq, value_display_eq]

/-! ## Association-list lemmas for `setCol` -/

/-- Replacing the column named `c` leaves lookups of other names alone. -/
theorem find_map_set_ne (c c' : String) (cells : List Cell)
    (l : List (String × List Cell)) (h : c' ≠ c) :
    (l.map (fun p => if p.1 == c then (c, cells) else p)).find? (fun p => p.1 == c') =
      l.find? (fun p => p.1 == c') := by
  have hcc' : (c == c') = false := beq_eq_false_iff_ne.mpr (Ne.symm h)
  induction l with
  | nil => rfl
  | cons p tl ih =>
    cases hpc : (p.1 == c) with
    | true =>
      have hp1 : p.1 = c := eq_of_beq hpc
      have hpc2 : (p.1 == c') = false := by rw [hp1]; exact hcc'
      have hif : (if (p.1 == c) = true then ((c, cells) : String × List Cell) else p) =
          (c, cells) := if_pos hpc
      simp only [List.map_cons, hif, List.find?, hcc', hpc2]
      exact ih
    | false =>
      have hif : (if (p.1 == c) = true then ((c, cells) : String × List Cell) else p) = p :=
        if_neg (by simp [hpc])
      cases hpc' : (p.1 == c') with
      | true =>
        simp only [List.map_cons, hif, List.find?, hpc']
      | false =>
        simp only [List.map_cons, hif, List.find?, hpc']
        exact ih

/-- Appending a new column named `c` leaves lookups of other names alone. -/
theorem find_append_ne (c c' : String) (cells : List Cell)
    (l : List (String × List Cell)) (h : c' ≠ c) :
    (l ++ [(c, cells)]).find? (fun p => p.1 == c') = l.find? (fun p => p.1 == c') := by
  have hcc' : (c == c') = false := beq_eq_false_iff_ne.mpr (Ne.symm h)
  induction l with
  | nil =>
    simp only [List.nil_append, List.find?, hcc']
  | cons p tl ih =>
    cases hpc' : (p.1 == c') with
    | true =>
      simp only [List.cons_append, List.find?, hpc']
    | false =>
      simp only [List.cons_append, List.find?, hpc']
      exact ih

/-- Replacing the column named `c` makes it found with the new cells,
provided some column of that name is present. -/
theorem find_map_set_self (c : String) (cells : List Cell)
    (l : List (String × List Cell)) (h : l.any (fun p => p.1 == c) = true) :
    (l.map (fun p => if p.1 == c then (c, cells) else p)).find? (fun p => p.1 == c) =
      some (c, cells) := by
  induction l with
  | nil => cases h
  | cons p tl ih =>
    cases hpc : (p.1 == c) with
    | true =>
      have hif : (if (p.1 == c) = true then ((c, cells) : String × List Cell) else p) =
          (c, cells) := if_pos hpc
      simp only [List.map_cons, hif, List.find?, beq_self_eq_true]
    | false =>
      have htl : tl.any (fun p => p.1 == c) = true := by
        rw [List.any_cons, hpc] at h
        simpa using h
      have hif : (if (p.1 == c) = true then ((c, cells) : String × List Cell) else p) = p :=
        if_neg (by simp [hpc])
      simp only [List.map_cons]
      rw [hif]
      simp only [List.find?, hpc]
      exact ih htl

/-- Appending the column named `c` makes it found, provided no column of
that name was present. -/
theorem find_append_self (c : String) (cells : List Cell)
    (l : List (String × List Cell)) (h : l.any (fun p => p.1 == c) = false) :
    (l ++ [(c, cells)]).find? (fun p => p.1 == c) = some (c, cells) := by
  induction l with
  | nil => simp only [List.nil_append, List.find?, beq_self_eq_true]
  | cons p tl ih =>
    have hpc : (p.1 == c) = false := by
      cases hx : (p.1 == c) with
      | true => rw [List.any_cons, hx] at h; cases h
      | false => rfl
    have htl : tl.any (fun p => p.1 == c) = false := by
      rw [List.any_cons, hpc] at h
      simpa using h
    simp only [List.cons_append, List.find?, hpc]
    exact ih htl

/-- `setCol` frame property: other columns are untouched. -/
theorem getCol_setCol_ne (df : DF) (c c' : String) (cells : List Cell) (h : c' ≠ c) :
    getCol (setCol df c cells) c' = getCol df c' := by
  rcases df with ⟨l⟩
  simp only [getCol, setCol]
  split
  · rw [find_map_set_ne c c' cells l h]
  · rw [find_append_ne c c' cells l h]

/-- `setCol` sets the named column. -/
theorem getCol_setCol_self (df : DF) (c : String) (cells : List Cell) :
    getCol (setCol df c cells) c = some cells := by
  rcases df with ⟨l⟩
  simp only [getCol, setCol]
  split
  case isTrue h => rw [find_map_set_self c cells l h]; rfl
  case isFalse h =>
    rw [find_append_self c cells l (Bool.eq_false_iff.mpr h)]
    rfl

/-- Example sentiment table with no accepted score alias. -/
def sentiEx : DF := ⟨[("text", [Cell.str "good"]), ("polarity", [Cell.na])]⟩

/-- C4: the sentiment score column is resolved by checking the aliases
sentiment_score, sentiment, score, sentiment score in that order, first
match winning; when none matches, the News Sentiments page reports the
column names actually present and skips the visualizations. -/
theorem sentiment_col_resolution :
    (∀ cols : List String,
      resolve_sentiment_col cols =
        if "sentiment_score" ∈ cols then some "sentiment_score"
        else if "sentiment" ∈ cols then some "sentiment"
        else if "score" ∈ cols then some "score"
        else if "sentiment score" ∈ cols then some "sentiment score"
        else none) ∧
    ∀ df : DF, isEmptyDF df = false →
      resolve_sentiment_col (colNames df) = none →
      news_sentiments_page df = .missingCol (colNames df) := by
  constructor
  · intro cols
    simp only [resolve_sentiment_col, possible_sentiment_cols]
    by_cases h1 : "sentiment_score" ∈ cols
    · rw [List.find?_cons_of_pos _ (by simpa using h1), if_pos h1]
    · rw [List.find?_cons_of_neg _ (by simpa using h1), if_neg h1]
      by_cases h2 : "sentiment" ∈ cols
      · rw [List.find?_cons_of_pos _ (by simpa using h2), if_pos h2]
      · rw [List.find?_cons_of_neg _ (by simpa using h2), if_neg h2]
        by_cases h3 : "score" ∈ cols
        · rw [List.find?_cons_of_pos _ (by simpa using h3), if_pos h3]
        · rw [List.find?_cons_of_neg _ (by simpa using h3), if_neg h3]
          by_cases h4 : "sentiment score" ∈ cols
          · rw [List.find?_cons_of_pos _ (by simpa using h4), if_pos h4]
          · rw [List.find?_cons_of_neg _ (by simpa using h4), if_neg h4]
            rfl
  · intro df hne hnone
    simp only [news_sentiments_page, hne, hnone]
    rfl

/-- Witness for C4: a table whose columns are text and polarity resolves
no alias, and the page reports those columns. -/
theorem sentiment_col_resolution_witness :
    isEmptyDF sentiEx = false ∧
    resolve_sentiment_col (colNames sentiEx) = none ∧
    news_sentiments_page sentiEx = .missingCol (colNames sentiEx) :=
  ⟨rfl, rfl, sentiment_col_resolution.2 sentiEx rfl rfl⟩

/-- C3 evaluation: every loader returns the empty table (rather than
raising) on a missing file, but the Filtered Visualizations page then
faults with a `Date` key error when both loaded tables are empty, because
it accesses `combined_df['Date']` without an emptiness guard. -/
theorem missing_files_filtered_view_faults :
    load_financial_data none = emptyDF ∧
    load_commodities_data none = emptyDF ∧
    load_sentiment_data none = emptyDF ∧
    filtered_visuals_prepare (load_financial_data none) (load_commodities_data none) =
      .error "KeyError: Date" :=
  ⟨rfl, rfl, rfl, rfl⟩

/-- Example loaded financial table (a Date column and one numeric column). -/
def finEx : DF := ⟨[("Date", [Cell.date 2020 0]), ("Total Revenue", [Cell.na])]⟩

/-- Example loaded commodities table. -/
def commEx : DF := ⟨[("Date", [Cell.date 2020 0]), ("CPI", [Cell.na])]⟩

/-- C2 counterexample: rendering the Filtered Visualizations page writes a
`source` column in place into the loaded tables, so the originals do not
stay unchanged. -/
theorem filtered_view_mutates_loaded_tables :
    "source" ∉ colNames finEx ∧
    "source" ∈ colNames (tagSource finEx "financial") ∧
    tagSource finEx "financial" ≠ finEx ∧
    "source" ∈ colNames (tagSource commEx "commodities") ∧
    tagSource commEx "commodities" ≠ commEx := by
  refine ⟨by decide, by decide, ?_, by decide, ?_⟩
  · intro h
    exact (by decide : "source" ∉ colNames finEx)
      (h ▸ (by decide : "source" ∈ colNames (tagSource finEx "financial")))
  · intro h
    exact (by decide : "source" ∉ colNames commEx)
      (h ▸ (by decide : "source" ∈ colNames (tagSource commEx "commodities")))

/-- C2 amended: the page's in-place update touches exactly the `source`
column of each loaded table — every other column (in particular the
derived `year` and `month`, which are added only to the transient combined
table) is unchanged — and the combined view is built from exactly these
two tagged tables. -/
theorem filtered_view_frame_effect :
    (∀ (df : DF) (tag : String),
      (∀ c : String, c ≠ "source" → getCol (tagSource df tag) c = getCol df c) ∧
      getCol (tagSource df tag) "source" =
        some (List.replicate (nrows df) (Cell.str tag))) ∧
    ∀ fin comm res, filtered_visuals_prepare fin comm = .ok res →
      res.1 = tagSource fin "financial" ∧ res.2.1 = tagSource comm "commodities" := by
  constructor
  · intro df tag
    exact ⟨fun c hc => getCol_setCol_ne df "source" c _ hc,
      getCol_setCol_self df "source" _⟩
  · intro fin comm res h
    simp only [filtered_visuals_prepare] at h
    cases hd : getCol (concatDF (tagSource fin "financial") (tagSource comm "commodities"))
        "Date" with
    | none =>
      rw [hd] at h
      exact Except.noConfusion h
    | some dates =>
      rw [hd] at h
      cases h
      exact ⟨rfl, rfl⟩

/-- Witness for C2: the Date column of the example financial table is
untouched by the in-place source tagging. -/
theorem filtered_view_frame_effect_witness :
    ("Date" : String) ≠ "source" ∧
    getCol (tagSource finEx "financial") "Date" = getCol finEx "Date" :=
  ⟨by decide, (filtered_view_frame_effect.1 finEx "financial").1 "Date" (by decide)⟩

/-- A one-row table whose only row falls in January 2020. -/
def janRow : Row := ⟨2020, 0, some 5⟩

/-- C1 counterexample: monthly aggregation of a table with rows only in
January still emits an entry for February (and for every other month) —
grouping by the ordered categorical with the pandas default
`observed=False` produces a bucket per category, with an undefined mean
for empty buckets, rather than omitting them. -/
theorem monthly_agg_emits_empty_month :
    ("February", (none : Option ℚ)) ∈ monthlyAgg [janRow] ∧
    valuesInMonth [janRow] 1 = [] ∧
    (monthlyAgg [janRow]).length = 12 := by
  refine ⟨by decide, by decide, by decide⟩

/-- C1 amended: monthly aggregation always returns exactly twelve
entries, one per calendar month name in calendar order (January through
December, never alphabetical); a month with at least one contributing row
carries the arithmetic mean of its contributing values, and a month with
zero contributing rows carries an undefined mean (`none`) instead of
being omitted. -/
theorem monthly_agg_all_twelve :
    ∀ rows : List Row,
      ((monthlyAgg rows).map Prod.fst = month_order) ∧
      ((monthlyAgg rows).length = 12) ∧
      ((monthlyAgg rows).map Prod.fst).Nodup ∧
      (∀ m : Fin 12, (monthlyAgg rows)[(m : ℕ)]? =
        some (monthName m, meanOf (valuesInMonth rows m))) ∧
      (∀ m : Fin 12, valuesInMonth rows m ≠ [] →
        meanOf (valuesInMonth rows m) =
          some ((valuesInMonth rows m).sum / ((valuesInMonth rows m).length : ℚ))) ∧
      (∀ m : Fin 12, valuesInMonth rows m = [] →
        meanOf (valuesInMonth rows m) = none) := by
  intro rows
  have hfst : (monthlyAgg rows).map Prod.fst = month_order := by
    simp only [monthlyAgg, List.map_map]
    show (List.finRange 12).map (fun m => monthName m) = month_order
    decide
  refine ⟨hfst, ?_, ?_, ?_, ?_, ?_⟩
  · simp [monthlyAgg]
  · rw [hfst]; decide
  · intro m
    rw [monthlyAgg, List.getElem?_map]
    rw [List.getElem?_eq_getElem (by simp)]
    simp [List.getElem_finRange, Fin.eta]
  · intro m hne
    rw [meanOf, if_neg (by simpa [List.isEmpty_iff] using hne)]
  · intro m he
    rw [meanOf, if_pos (by simpa [List.isEmpty_iff] using he)]

/-- Witness for C1 (amended): on the one-row January table, January has a
contributing row and carries the mean, February has none and carries an
undefined mean. -/
theorem monthly_agg_all_twelve_witness :
    valuesInMonth [janRow] 0 ≠ [] ∧
    meanOf (valuesInMonth [janRow] 0) =
      some ((valuesInMonth [janRow] 0).sum / ((valuesInMonth [janRow] 0).length : ℚ)) ∧
    valuesInMonth [janRow] 1 = [] ∧
    meanOf (valuesInMonth [janRow] 1) = none :=
  ⟨by decide, (monthly_agg_all_twelve [janRow]).2.2.2.2.1 0 (by decide), by decide,
    (monthly_agg_all_twelve [janRow]).2.2.2.2.2 1 (by decide)⟩

/-! ## Sorted-insertion lemmas for the yearly group keys -/

/-- Membership in a sorted insertion. -/
theorem mem_sortedInsertYear (y a : ℤ) (l : List ℤ) :
    a ∈ sortedInsertYear y l ↔ a = y ∨ a ∈ l := by
  induction l with
  | nil => simp [sortedInsertYear]
  | cons b tl ih =>
    simp only [sortedInsertYear]
    by_cases h1 : y < b
    · rw [if_pos h1]
      simp [List.mem_cons]
    · rw [if_neg h1]
      by_cases h2 : y = b
      · rw [if_pos h2]
        subst h2
        simp [List.mem_cons]
      · rw [if_neg h2]
        simp [List.mem_cons, ih]
        tauto

/-- Sorted insertion preserves strict ascending chains. -/
theorem chain_sortedInsertYear (y : ℤ) (l : List ℤ)
    (h : List.Chain' (fun a b => a < b) l) :
    List.Chain' (fun a b => a < b) (sortedInsertYear y l) := by
  induction l with
  | nil => simp [sortedInsertYear]
  | cons b tl ih =>
    simp only [sortedInsertYear]
    by_cases h1 : y < b
    · rw [if_pos h1]
      exact List.chain'_cons.mpr ⟨h1, h⟩
    · rw [if_neg h1]
      by_cases h2 : y = b
      · rw [if_pos h2]
        exact h
      · rw [if_neg h2]
        have hby : b < y := by omega
        have htl := ih h.tail
        rw [List.chain'_cons']
        refine ⟨?_, htl⟩
        intro z hz
        cases tl with
        | nil =>
          simp [sortedInsertYear] at hz
          omega
        | cons c tl2 =>
          have hbc : b < c := (List.chain'_cons.mp h).1
          simp only [sortedInsertYear] at hz
          by_cases h3 : y < c
          · rw [if_pos h3] at hz
            simp at hz
            omega
          · rw [if_neg h3] at hz
            by_cases h4 : y = c
            · rw [if_pos h4] at hz
              simp at hz
              omega
            · rw [if_neg h4] at hz
              simp at hz
              omega

/-- The year keys are a strictly ascending chain. -/
theorem chain_yearsOf (rows : List Row) :
    List.Chain' (fun a b => a < b) (yearsOf rows) := by
  induction rows with
  | nil => simp [yearsOf]
  | cons r tl ih => exact chain_sortedInsertYear r.year (yearsOf tl) ih

/-- The year keys are exactly the years occurring among the rows. -/
theorem mem_yearsOf (rows : List Row) (y : ℤ) :
    y ∈ yearsOf rows ↔ ∃ r ∈ rows, r.year = y := by
  induction rows with
  | nil => simp [yearsOf]
  | cons r tl ih =>
    show y ∈ sortedInsertYear r.year (yearsOf tl) ↔ _
    rw [mem_sortedInsertYear]
    constructor
    · rintro (h | h)
      · exact ⟨r, List.mem_cons_self r tl, h.symm⟩
      · obtain ⟨r', hr', hy⟩ := ih.mp h
        exact ⟨r', List.mem_cons_of_mem _ hr', hy⟩
    · rintro ⟨r', hr', hy⟩
      rcases List.mem_cons.mp hr' with rfl | hmem
      · exact Or.inl hy.symm
      · exact Or.inr (ih.mpr ⟨r', hmem, hy⟩)

/-- C8: yearly aggregation returns buckets keyed by integer calendar year,
strictly ascending with no duplicates — one bucket per year occurring in
the table — each bucket carrying the arithmetic mean of the column over
the contributing rows of that year. -/
theorem yearly_agg_sorted_mean :
    ∀ rows : List Row,
      List.Chain' (fun a b => a < b) ((yearlyAgg rows).map Prod.fst) ∧
      ((yearlyAgg rows).map Prod.fst).Nodup ∧
      (∀ (y : ℤ) (v : Option ℚ),
        ((y, v) ∈ yearlyAgg rows ↔
          (∃ r ∈ rows, r.year = y) ∧ v = meanOf (valuesInYear rows y))) ∧
      (∀ y : ℤ, valuesInYear rows y ≠ [] →
        meanOf (valuesInYear rows y) =
          some ((valuesInYear rows y).sum / ((valuesInYear rows y).length : ℚ))) := by
  intro rows
  have hfst : (yearlyAgg rows).map Prod.fst = yearsOf rows := by
    rw [yearlyAgg, List.map_map]
    show (yearsOf rows).map (fun y => y) = yearsOf rows
    simp
  have hchain : List.Chain' (fun a b => a < b) ((yearlyAgg rows).map Prod.fst) := by
    rw [hfst]
    exact chain_yearsOf rows
  refine ⟨hchain, ?_, ?_, ?_⟩
  · exact (List.chain'_iff_pairwise.mp hchain).imp (fun hx => ne_of_lt hx)
  · intro y v
    constructor
    · intro hmem
      rw [yearlyAgg] at hmem
      obtain ⟨a, ha, heq⟩ := List.mem_map.mp hmem
      rw [Prod.mk.injEq] at heq
      obtain ⟨rfl, rfl⟩ := heq
      exact ⟨(mem_yearsOf rows a).mp ha, rfl⟩
    · rintro ⟨hex, rfl⟩
      rw [yearlyAgg]
      exact List.mem_map.mpr ⟨y, (mem_yearsOf rows y).mpr hex, rfl⟩
  · intro y hne
    rw [meanOf, if_neg (by simpa [List.isEmpty_iff] using hne)]

/-- Witness for C8: on the one-row 2020 table, the 2020 bucket has
contributing values and carries their mean. -/
theorem yearly_agg_sorted_mean_witness :
    valuesInYear [janRow] 2020 ≠ [] ∧
    meanOf (valuesInYear [janRow] 2020) =
      some ((valuesInYear [janRow] 2020).sum / ((valuesInYear [janRow] 2020).length : ℚ)) :=
  ⟨by decide, (yearly_agg_sorted_mean [janRow]).2.2.2 2020 (by decide)⟩

/-- C9: on a table of at least two rows whose rows are ordered strictly
ascending by Date, the positional accesses `iloc[-1]` and `iloc[-2]` used
for the metric cards return the row with the maximum Date and the row
immediately preceding it in Date order. -/
theorem latest_prev_by_date (rows : List (ℤ × ℚ))
    (hsorted : List.Pairwise (fun a b => a.1 < b.1) rows)
    (hlen : 2 ≤ rows.length) :
    ∃ last prev,
      ilocLast rows = some last ∧ ilocPrev rows = some prev ∧
      last ∈ rows ∧ prev ∈ rows ∧
      (∀ r ∈ rows, r.1 ≤ last.1) ∧
      prev.1 < last.1 ∧
      (∀ r ∈ rows, r ≠ last → r.1 ≤ prev.1) := by
  have h1 : rows.length - 1 < rows.length := by omega
  have h2 : rows.length - 2 < rows.length := by omega
  have hget := List.pairwise_iff_get.mp hsorted
  refine ⟨rows.get ⟨rows.length - 1, h1⟩, rows.get ⟨rows.length - 2, h2⟩,
    ?_, ?_, List.get_mem rows _ h1, List.get_mem rows _ h2, ?_, ?_, ?_⟩
  · rw [ilocLast, List.getLast?_eq_getElem?, List.getElem?_eq_getElem h1]
    rfl
  · simp only [ilocPrev]
    rw [if_pos (by omega), List.getElem?_eq_getElem h2]
    rfl
  · intro r hr
    obtain ⟨i, rfl⟩ := List.mem_iff_get.mp hr
    rcases Nat.lt_or_ge i.val (rows.length - 1) with hi | hi
    · exact le_of_lt (hget i ⟨rows.length - 1, h1⟩ hi)
    · have hlt := i.isLt
      have : i = ⟨rows.length - 1, h1⟩ := Fin.ext (show i.val = rows.length - 1 by omega)
      rw [this]
  · exact hget ⟨rows.length - 2, h2⟩ ⟨rows.length - 1, h1⟩ (Fin.mk_lt_mk.mpr (by omega))
  · intro r hr hne
    obtain ⟨i, rfl⟩ := List.mem_iff_get.mp hr
    rcases Nat.lt_trichotomy i.val (rows.length - 2) with hi | hi | hi
    · exact le_of_lt (hget i ⟨rows.length - 2, h2⟩ hi)
    · have : i = ⟨rows.length - 2, h2⟩ := Fin.ext hi
      rw [this]
    · exfalso
      apply hne
      have hlt := i.isLt
      have : i = ⟨rows.length - 1, h1⟩ := Fin.ext (show i.val = rows.length - 1 by omega)
      rw [this]

/-- Witness for C9 on the two-row series (Date 1, value 10), (Date 2,
value 20). -/
theorem latest_prev_by_date_witness :
    List.Pairwise (fun a b : ℤ × ℚ => a.1 < b.1) [((1 : ℤ), (10 : ℚ)), (2, 20)] ∧
    2 ≤ ([((1 : ℤ), (10 : ℚ)), (2, 20)] : List (ℤ × ℚ)).length ∧
    ∃ last prev,
      ilocLast [((1 : ℤ), (10 : ℚ)), (2, 20)] = some last ∧
      ilocPrev [((1 : ℤ), (10 : ℚ)), (2, 20)] = some prev ∧
      last ∈ [((1 : ℤ), (10 : ℚ)), (2, 20)] ∧ prev ∈ [((1 : ℤ), (10 : ℚ)), (2, 20)] ∧
      (∀ r ∈ [((1 : ℤ), (10 : ℚ)), (2, 20)], r.1 ≤ last.1) ∧
      prev.1 < last.1 ∧
      (∀ r ∈ [((1 : ℤ), (10 : ℚ)), (2, 20)], r ≠ last → r.1 ≤ prev.1) :=
  ⟨by decide, by decide, latest_prev_by_date _ (by decide) (by decide)⟩

/-- Witness for C10 at the single row (Date 0, value 5). -/
theorem single_row_delta_zero_witness :
    ilocPrev [((0 : ℤ), (5 : ℚ))] = ilocLast [((0 : ℤ), (5 : ℚ))] ∧
    pct_change 5 5 = 0 ∧
    ∃ card, metrics_pipeline [((0 : ℤ), (5 : ℚ))] = some card ∧
      card.arrow = "↑" ∧
      card.change_text = "↑ 0.00 (0.0%)" ∧
      card.value_display = (create_metric_card (.num 5) none none).value_display :=
  single_row_delta_zero 0 5
